import Mathlib

/-!
# Backup / restore command orchestration and the etcd status observer

A shallow embedding of

* `pkg/cmd/backuprestore/backuprestore.go` (options, flag binding, `Validate`,
  `Run`, the `must` wrapper and the two command bodies, the interrupt
  listener of `restoreOptions.Run`), and
* `pkg/operator/configobservation/etcdstatus/observe_etcd_status.go`
  (`ObserveEtcdStatus`, `setVersion`).

Go values are embedded as follows.

* `error` is `Option GoError`; `nil` is `none`, and `err.Error()` is the
  `text` field.
* An `io.Writer` is a handle (`Writer`); every write is recorded in a trace.
* Effects of the orchestration code (function entries, engine invocations,
  klog lines, writes) are recorded, in program order, in `World.trace`.
* The delegated engines `backup` and `restore` are parameters.  They act on a
  state of an arbitrary type `σ` and return a Go `error`; whatever an engine
  does is a change of that state and is not part of the trace.
* `klog.Fatal` logs and then exits the process (`os.Exit(255)`); code after
  it is never executed, which is the `Outcome.exited` result.
-/

namespace ClusterEtcdOperator

/-- Go `error` value that is not `nil`; `text` is what `Error()` returns. -/
structure GoError where
  text : String
deriving DecidableEq, Repr

/-- Result of `errors.New(s)`. -/
def errorsNew (s : String) : GoError := ⟨s⟩

/-- Handle of an `io.Writer`. -/
abbrev Writer := Nat

/-- Go `len(s)` of a string: its length in bytes. -/
def goLen (s : String) : Nat := s.utf8ByteSize

/-- The struct `backupOptions` (lines 15-24). -/
structure backupOptions where
  endpoints : List String
  configDir : String
  dataDir : String
  backupDir : String
  cert : String
  key : String
  cacert : String
  errOut : Writer
deriving DecidableEq, Repr

/-- The struct `restoreOptions` (lines 77-82). -/
structure restoreOptions where
  configDir : String
  dataDir : String
  backupDir : String
  errOut : Writer
deriving DecidableEq, Repr

/-- The text of the error both `Validate` methods build. -/
def missingBackupDir : String := "missing required flag: --backup-dir"

/-- The method `backupOptions.Validate` (lines 62-67). -/
def backupOptions.Validate (r : backupOptions) : Option GoError :=
  if goLen r.backupDir == 0 then
    some (errorsNew missingBackupDir)
  else
    none

/-- The method `restoreOptions.Validate` (lines 116-121). -/
def restoreOptions.Validate (r : restoreOptions) : Option GoError :=
  if goLen r.backupDir == 0 then
    some (errorsNew missingBackupDir)
  else
    none

/-! ## Effects -/

/-- The methods of the options whose entry is recorded in the trace. -/
inductive Method where
  | Validate
  | Run
deriving DecidableEq, Repr

/-- A `context.Context` made by `context.WithCancel(context.Background())`, as
the restore engine sees it: `cancelled` tells whether `cancel()` was called
on it while the engine call was in progress. -/
structure Ctx where
  cancelled : Bool
deriving DecidableEq, Repr

/-- One effect of the orchestration code. -/
inductive Event where
  | enter (m : Method)
  | backup (r : backupOptions)
  | restore (ctx : Ctx) (r : restoreOptions)
  | klogErrorf (msg : String)
  | klogWarningf (msg : String)
  | klogInfo (msg : String)
  | klogFatal (err : GoError)
  | cancel
  | fprint (w : Writer) (s : String)
deriving DecidableEq, Repr

/-- What the orchestration code acts on: the state the delegated engine owns,
and the effects performed so far, oldest first. -/
structure World (σ : Type) where
  engine : σ
  trace : List Event

/-- The world at the start of an invocation. -/
def World.start {σ : Type} (e : σ) : World σ := ⟨e, []⟩

/-- Append one effect to the trace. -/
def World.emit {σ : Type} (w : World σ) (ev : Event) : World σ :=
  { w with trace := w.trace ++ [ev] }

/-- How a command body ends: it returns to its caller, or the process is
terminated by `klog.Fatal`. -/
inductive Outcome where
  | returned
  | exited
deriving DecidableEq, Repr

/-- The backup engine `backup(r)`, a collaborator of this layer. -/
abbrev BackupEngine (σ : Type) := backupOptions → σ → Option GoError × σ

/-- The restore engine `restore(ctx, r)`, a collaborator of this layer. -/
abbrev RestoreEngine (σ : Type) := Ctx → restoreOptions → σ → Option GoError × σ

/-! ## The interrupt listener of `restoreOptions.Run` (lines 124-133) -/

/-- The program point of the listener goroutine: blocked on `<-c` (line 130),
about to log (line 131), about to call `cancel()` (line 132), past the call
and about to return, terminated. -/
inductive Phase where
  | listening
  | received
  | warned
  | cancelled
  | idle
deriving DecidableEq, Repr

/-- Position of a phase in program order. -/
def Phase.rank : Phase → Nat
  | .listening => 0
  | .received => 1
  | .warned => 2
  | .cancelled => 3
  | .idle => 4

/-- The channel `c`, the context and the listener goroutine.  `chan` is the
buffer of `c` (capacity 1, every element is `os.Interrupt`, so only its
length is kept), `ctxDone` the cancellation flag of `ctx`, `cancels` the
number of `cancel()` calls made, `delivered` the number of interrupts the
process has received, `log` the effects of the listener. -/
structure Bridge where
  chan : Nat
  phase : Phase
  ctxDone : Bool
  cancels : Nat
  delivered : Nat
  log : List Event
deriving DecidableEq, Repr

/-- State after `make(chan os.Signal, 1)`, `signal.Notify(c, os.Interrupt)`,
`context.WithCancel` and the `go` statement. -/
def Bridge.init : Bridge :=
  { chan := 0, phase := .listening, ctxDone := false, cancels := 0, delivered := 0, log := [] }

/-- What can happen while the engine call is in progress: the process
receives an interrupt, or the listener goroutine is scheduled for one
statement. -/
inductive Action where
  | interrupt
  | listener
deriving DecidableEq, Repr

/-- The relay of `signal.Notify`: a send on `c` that does not block; the
signal is dropped when the buffer is full. -/
def Bridge.notify (b : Bridge) : Bridge :=
  if b.chan < 1 then
    { b with chan := b.chan + 1, delivered := b.delivered + 1 }
  else
    { b with delivered := b.delivered + 1 }

/-- One statement of the goroutine of lines 129-133. -/
def Bridge.listenerStep (b : Bridge) : Bridge :=
  match b.phase with
  | .listening =>
    if b.chan = 0 then b
    else { b with chan := b.chan - 1, phase := .received }
  | .received =>
    { b with phase := .warned, log := b.log ++ [Event.klogWarningf "system call:interrupt"] }
  | .warned =>
    { b with phase := .cancelled, ctxDone := true, cancels := b.cancels + 1,
             log := b.log ++ [Event.cancel] }
  | .cancelled => { b with phase := .idle }
  | .idle => b

/-- One action. -/
def Bridge.step (b : Bridge) : Action → Bridge
  | .interrupt => b.notify
  | .listener => b.listenerStep

/-- A schedule of actions, first action first. -/
def Bridge.run (b : Bridge) : List Action → Bridge
  | [] => b
  | a :: rest => (b.step a).run rest

/-- The listener cannot take a step: it is blocked on the empty channel or has
terminated. -/
def Bridge.quiescent (b : Bridge) : Bool :=
  (b.phase == .listening && b.chan == 0) || b.phase == .idle

/-- What every reachable state of the listener satisfies: the buffer holds
at most one signal; `cancel()` has been called once if the goroutine is past
line 132 and never otherwise, and the context is cancelled exactly then;
before the first interrupt the goroutine is blocked on the empty channel;
after it, a goroutine still at line 130 finds a signal in the buffer. -/
def Bridge.Inv (b : Bridge) : Prop :=
  b.chan ≤ 1 ∧
  b.cancels = (if 3 ≤ b.phase.rank then 1 else 0) ∧
  b.ctxDone = decide (3 ≤ b.phase.rank) ∧
  (b.delivered = 0 → b.phase = .listening ∧ b.chan = 0) ∧
  (0 < b.delivered → b.phase = .listening → b.chan = 1) ∧
  b.log.count Event.cancel = b.cancels

/-! ## `Validate`, `Run`, `must` and the command bodies -/

/-- The method value `backupOpts.Validate` as `must` calls it. -/
def backupOptions.ValidateM {σ : Type} (r : backupOptions) (w : World σ) :
    Option GoError × World σ :=
  (r.Validate, w.emit (.enter .Validate))

/-- The method value `restoreOpts.Validate` as `must` calls it. -/
def restoreOptions.ValidateM {σ : Type} (r : restoreOptions) (w : World σ) :
    Option GoError × World σ :=
  (r.Validate, w.emit (.enter .Validate))

/-- The method `backupOptions.Run` (lines 69-75). -/
def backupOptions.Run {σ : Type} (backup : BackupEngine σ) (r : backupOptions)
    (w : World σ) : Option GoError × World σ :=
  let w0 := w.emit (.enter .Run)
  let w1 := w0.emit (.backup r)
  match backup r w1.engine with
  | (some err, e) =>
    (some err, ({ w1 with engine := e }).emit (.klogErrorf ("run: backup failed: " ++ err.text)))
  | (none, e) => (none, { w1 with engine := e })

/-- The method `restoreOptions.Run` (lines 123-141).  `sched` is what happens
between the `go` statement and the return of the engine call. -/
def restoreOptions.Run {σ : Type} (restore : RestoreEngine σ) (sched : List Action)
    (r : restoreOptions) (w : World σ) : Option GoError × World σ :=
  let w0 := w.emit (.enter .Run)
  let b := Bridge.init.run sched
  let ctx : Ctx := ⟨b.ctxDone⟩
  let w1 := w0.emit (.restore ctx r)
  match restore ctx r w1.engine with
  | (some err, e) =>
    (some err, ({ engine := e, trace := w1.trace ++ b.log } : World σ).emit
      (.klogErrorf ("run: restore failed: " ++ err.text)))
  | (none, e) =>
    (none, ({ engine := e, trace := w1.trace ++ b.log } : World σ).emit
      (.klogInfo "Successfully restored the cluster from the backup!"))

/-- The closure `must` (lines 34-41 and 92-99).  `hasParent` is
`cmd.HasParent()`, `errOut` the `errOut` field of the options. -/
def must {σ : Type} (hasParent : Bool) (errOut : Writer)
    (fn : World σ → Option GoError × World σ) (w : World σ) : Outcome × World σ :=
  match fn w with
  | (some err, w1) =>
    if hasParent then
      (.exited, w1.emit (.klogFatal err))
    else
      (.returned, w1.emit (.fprint errOut err.text))
  | (none, w1) => (.returned, w1)

/-- The `Run` closure of `NewBackupCommand` (lines 33-45). -/
def NewBackupCommand.Run {σ : Type} (backup : BackupEngine σ) (hasParent : Bool)
    (backupOpts : backupOptions) (w : World σ) : Outcome × World σ :=
  match must hasParent backupOpts.errOut backupOpts.ValidateM w with
  | (.exited, w1) => (.exited, w1)
  | (.returned, w1) => must hasParent backupOpts.errOut (backupOpts.Run backup) w1

/-- The `Run` closure of `NewRestoreCommand` (lines 91-103). -/
def NewRestoreCommand.Run {σ : Type} (restore : RestoreEngine σ) (sched : List Action)
    (hasParent : Bool) (restoreOpts : restoreOptions) (w : World σ) : Outcome × World σ :=
  match must hasParent restoreOpts.errOut restoreOpts.ValidateM w with
  | (.exited, w1) => (.exited, w1)
  | (.returned, w1) => must hasParent restoreOpts.errOut (restoreOpts.Run restore sched) w1

/-! ## Reading a trace -/

/-- The errors handed to `klog.Fatal`. -/
def fatals (t : List Event) : List GoError :=
  t.filterMap fun
    | .klogFatal err => some err
    | _ => none

/-- All writes, to whatever writer, in order. -/
def allWrites (t : List Event) : List (Writer × String) :=
  t.filterMap fun
    | .fprint w s => some (w, s)
    | _ => none

/-- The strings written to the writer `h`, in order. -/
def writesTo (h : Writer) (t : List Event) : List String :=
  ((allWrites t).filter fun p => p.1 == h).map Prod.snd

/-- The bytes the writer `h` received. -/
def bytesWritten (h : Writer) (t : List Event) : String :=
  String.join (writesTo h t)

/-- The methods entered, in order. -/
def entered (t : List Event) : List Method :=
  t.filterMap fun
    | .enter m => some m
    | _ => none

/-- The engine invocations, in order. -/
def engineCalls (t : List Event) : List Event :=
  t.filter fun
    | .backup _ => true
    | .restore _ _ => true
    | _ => false

/-- The `backupDir` of the options each engine invocation was made with. -/
def engineBackupDirs (t : List Event) : List String :=
  t.filterMap fun
    | .backup r => some r.backupDir
    | .restore _ r => some r.backupDir
    | _ => none

/-- The `cancel()` calls. -/
def cancelCalls (t : List Event) : Nat :=
  t.count Event.cancel

/-- The text of a Go `error`, empty for `nil`. -/
def errText : Option GoError → String
  | some err => err.text
  | none => ""

/-! ## Flag binding (lines 26-31, 47-60, 84-89, 105-114)

`pflag` is modelled by what it does to the bound variables: `StringVar` and
`StringSliceVar` store the default in the variable when the flag is
registered; setting a string flag stores the value; setting a string-slice
flag reads the value as one CSV record, which replaces the default the first
time and is appended afterwards.  `fs.Set("logtostderr", "true")` does not
touch the options and is left out. -/

/-- The flags `backupOptions.AddFlags` registers, bound to the fields of the
options; `endpointsChanged` is the field `changed` of the string-slice value
behind `endpoints`. -/
structure BackupFlagSet where
  opts : backupOptions
  endpointsChanged : Bool
deriving DecidableEq, Repr

/-- The flags `restoreOptions.AddFlags` registers, bound to the fields of the
options. -/
structure RestoreFlagSet where
  opts : restoreOptions
deriving DecidableEq, Repr

/-- The method `backupOptions.AddFlags` (lines 51-60); `getenv` is
`os.Getenv`. -/
def backupOptions.AddFlags (getenv : String → String) (r : backupOptions) : BackupFlagSet :=
  let r := { r with endpoints := ["127.0.0.1:2379"] }
  let r := { r with configDir := "/etc/kubernetes" }
  let r := { r with cert := getenv "ETCDCTL_CERT" }
  let r := { r with key := getenv "ETCDCTL_KEY" }
  let r := { r with cacert := getenv "ETCDCTL_CACERT" }
  let r := { r with dataDir := "/var/lib/etcd" }
  let r := { r with backupDir := "" }
  { opts := r, endpointsChanged := false }

/-- The method `restoreOptions.AddFlags` (lines 109-114). -/
def restoreOptions.AddFlags (r : restoreOptions) : RestoreFlagSet :=
  let r := { r with configDir := "/etc/kubernetes" }
  let r := { r with dataDir := "/var/lib/etcd" }
  let r := { r with backupDir := "" }
  { opts := r }

/-- The flag set of the command `NewBackupCommand(errOut)` returns
(lines 26-49): the options start as the zero struct with `errOut` set. -/
def NewBackupCommand (getenv : String → String) (errOut : Writer) : BackupFlagSet :=
  backupOptions.AddFlags getenv
    { endpoints := [], configDir := "", dataDir := "", backupDir := "",
      cert := "", key := "", cacert := "", errOut := errOut }

/-- The flag set of the command `NewRestoreCommand(errOut)` returns
(lines 84-107). -/
def NewRestoreCommand (errOut : Writer) : RestoreFlagSet :=
  restoreOptions.AddFlags { configDir := "", dataDir := "", backupDir := "", errOut := errOut }

/-- Setting the flag `name` of the backup command to `value`.  `readAsCSV`
is the CSV reader of the string-slice value. -/
def BackupFlagSet.Set (readAsCSV : String → Except GoError (List String))
    (fs : BackupFlagSet) (name value : String) : Except GoError BackupFlagSet :=
  if name = "endpoints" then
    match readAsCSV value with
    | .error err => .error err
    | .ok v =>
      if fs.endpointsChanged then
        .ok { opts := { fs.opts with endpoints := fs.opts.endpoints ++ v }, endpointsChanged := true }
      else
        .ok { opts := { fs.opts with endpoints := v }, endpointsChanged := true }
  else if name = "config-dir" then .ok { fs with opts := { fs.opts with configDir := value } }
  else if name = "cert" then .ok { fs with opts := { fs.opts with cert := value } }
  else if name = "key" then .ok { fs with opts := { fs.opts with key := value } }
  else if name = "cacert" then .ok { fs with opts := { fs.opts with cacert := value } }
  else if name = "data-dir" then .ok { fs with opts := { fs.opts with dataDir := value } }
  else if name = "backup-dir" then .ok { fs with opts := { fs.opts with backupDir := value } }
  else .error (errorsNew ("unknown flag: --" ++ name))

/-- Setting the flag `name` of the restore command to `value`. -/
def RestoreFlagSet.Set (fs : RestoreFlagSet) (name value : String) :
    Except GoError RestoreFlagSet :=
  if name = "config-dir" then .ok { opts := { fs.opts with configDir := value } }
  else if name = "data-dir" then .ok { opts := { fs.opts with dataDir := value } }
  else if name = "backup-dir" then .ok { opts := { fs.opts with backupDir := value } }
  else .error (errorsNew ("unknown flag: --" ++ name))

/-- Binding the flags supplied on the command line, as `(name, value)` pairs
in the order given, to the options of the backup command. -/
def BackupFlagSet.Parse (readAsCSV : String → Except GoError (List String)) :
    BackupFlagSet → List (String × String) → Except GoError BackupFlagSet
  | fs, [] => .ok fs
  | fs, (name, value) :: rest =>
    match fs.Set readAsCSV name value with
    | .error err => .error err
    | .ok fs1 => fs1.Parse readAsCSV rest

/-- Binding the flags supplied on the command line to the options of the
restore command. -/
def RestoreFlagSet.Parse : RestoreFlagSet → List (String × String) → Except GoError RestoreFlagSet
  | fs, [] => .ok fs
  | fs, (name, value) :: rest =>
    match fs.Set name value with
    | .error err => .error err
    | .ok fs1 => fs1.Parse rest

/-! ## The etcd status observer (`observe_etcd_status.go`)

`status.VersionGetter` is modelled by a map from operand names to versions:
`GetVersions` returns the map, `SetVersion` stores one entry.  Every
`SetVersion` call is also recorded. -/

/-- Go map indexing `m[k]` on a `map[string]string`: the zero value `""`
when the key is absent. -/
def goIndex (m : List (String × String)) (k : String) : String :=
  (m.lookup k).getD ""

/-- The version recorder. -/
structure VersionRecorder where
  versions : List (String × String)
  setVersionCalls : List (String × String)
deriving DecidableEq, Repr

/-- The method `GetVersions()`. -/
def VersionRecorder.GetVersions (v : VersionRecorder) : List (String × String) :=
  v.versions

/-- The method `SetVersion(operandName, version)`. -/
def VersionRecorder.SetVersion (v : VersionRecorder) (operandName version : String) :
    VersionRecorder :=
  { versions := (operandName, version) :: v.versions.filter (fun p => p.1 != operandName),
    setVersionCalls := v.setVersionCalls ++ [(operandName, version)] }

/-- The struct `etcdStatusObserver` (lines 19-22). -/
structure etcdStatusObserver where
  versionRecorder : VersionRecorder
  operatorVersion : String
deriving DecidableEq, Repr

/-- The method `setVersion` (lines 35-40). -/
def etcdStatusObserver.setVersion (c : etcdStatusObserver) : etcdStatusObserver :=
  if goIndex c.versionRecorder.GetVersions "operator" != c.operatorVersion then
    { c with versionRecorder := c.versionRecorder.SetVersion "operator" c.operatorVersion }
  else
    c

/-- The method `ObserveEtcdStatus` (lines 25-33).  It returns the observed
config, the errors, and the observer with its recorder as the call leaves
it.  `V` is the type of the values of a config map. -/
def etcdStatusObserver.ObserveEtcdStatus {L R V : Type} (c : etcdStatusObserver)
    (_genericListers : L) (_recorder : R) (_currentConfig : List (String × V)) :
    (List (String × V) × List GoError) × etcdStatusObserver :=
  let observedConfig : List (String × V) := []
  let allEtcdsUpdated := true
  let c1 := if allEtcdsUpdated then c.setVersion else c
  ((observedConfig, []), c1)

/-- The constructor `NewEtcdStatusObserver` (lines 11-17). -/
def NewEtcdStatusObserver (versionRecorder : VersionRecorder) (operatorVersion : String) :
    etcdStatusObserver :=
  { versionRecorder := versionRecorder, operatorVersion := operatorVersion }

/-! ## Basic facts -/

theorem goLen_eq_zero_iff (s : String) : goLen s = 0 ↔ s = "" := by
  obtain ⟨cs⟩ := s
  cases cs with
  | nil => simp [goLen, String.utf8ByteSize, String.utf8ByteSize.go]
  | cons c cs =>
    have hc := Char.utf8Size_pos c
    have : (String.mk (c :: cs)) ≠ "" := by
      intro h
      have := congrArg String.data h
      simp at this
    simp only [goLen, String.utf8ByteSize, String.utf8ByteSize.go, this, iff_false]
    omega

theorem backup_Validate_eq (r : backupOptions) :
    r.Validate = if r.backupDir = "" then some ⟨missingBackupDir⟩ else none := by
  simp [backupOptions.Validate, goLen_eq_zero_iff, errorsNew]

theorem restore_Validate_eq (r : restoreOptions) :
    r.Validate = if r.backupDir = "" then some ⟨missingBackupDir⟩ else none := by
  simp [restoreOptions.Validate, goLen_eq_zero_iff, errorsNew]

theorem backup_Run_fst {σ : Type} (backup : BackupEngine σ) (r : backupOptions)
    (w : World σ) : (r.Run backup w).1 = (backup r w.engine).1 := by
  unfold backupOptions.Run
  simp only [World.emit]
  split <;> simp_all

theorem restore_Run_fst {σ : Type} (restore : RestoreEngine σ) (sched : List Action)
    (r : restoreOptions) (w : World σ) :
    (r.Run restore sched w).1 = (restore ⟨(Bridge.init.run sched).ctxDone⟩ r w.engine).1 := by
  unfold restoreOptions.Run
  simp only [World.emit]
  split <;> simp_all

/-- The effects the listener goroutine can perform. -/
theorem Bridge.run_log (sched : List Action) :
    ∀ b : Bridge, (∀ ev ∈ b.log, (∃ m, ev = Event.klogWarningf m) ∨ ev = Event.cancel) →
      ∀ ev ∈ (b.run sched).log, (∃ m, ev = Event.klogWarningf m) ∨ ev = Event.cancel := by
  induction sched with
  | nil => intro b hb; simpa [Bridge.run] using hb
  | cons a rest ih =>
    intro b hb
    simp only [Bridge.run]
    apply ih
    cases a with
    | interrupt =>
      simp only [Bridge.step, Bridge.notify]
      split <;> exact hb
    | listener =>
      simp only [Bridge.step, Bridge.listenerStep]
      split
      · split <;> exact hb
      · intro ev hev
        simp only [List.mem_append, List.mem_singleton] at hev
        rcases hev with hev | hev
        · exact hb ev hev
        · exact Or.inl ⟨_, hev⟩
      · intro ev hev
        simp only [List.mem_append, List.mem_singleton] at hev
        rcases hev with hev | hev
        · exact hb ev hev
        · exact Or.inr hev
      · exact hb
      · exact hb

theorem Bridge.init_run_log (sched : List Action) :
    ∀ ev ∈ (Bridge.init.run sched).log, (∃ m, ev = Event.klogWarningf m) ∨ ev = Event.cancel :=
  Bridge.run_log sched Bridge.init (by simp [Bridge.init])

theorem fatals_listener (l : List Event)
    (h : ∀ ev ∈ l, (∃ m, ev = Event.klogWarningf m) ∨ ev = Event.cancel) : fatals l = [] := by
  simp only [fatals, List.filterMap_eq_nil_iff]
  intro ev hev
  rcases h ev hev with ⟨m, rfl⟩ | rfl <;> rfl

theorem allWrites_listener (l : List Event)
    (h : ∀ ev ∈ l, (∃ m, ev = Event.klogWarningf m) ∨ ev = Event.cancel) : allWrites l = [] := by
  simp only [allWrites, List.filterMap_eq_nil_iff]
  intro ev hev
  rcases h ev hev with ⟨m, rfl⟩ | rfl <;> rfl

theorem entered_listener (l : List Event)
    (h : ∀ ev ∈ l, (∃ m, ev = Event.klogWarningf m) ∨ ev = Event.cancel) : entered l = [] := by
  simp only [entered, List.filterMap_eq_nil_iff]
  intro ev hev
  rcases h ev hev with ⟨m, rfl⟩ | rfl <;> rfl

theorem engineCalls_listener (l : List Event)
    (h : ∀ ev ∈ l, (∃ m, ev = Event.klogWarningf m) ∨ ev = Event.cancel) :
    engineCalls l = [] := by
  simp only [engineCalls, List.filter_eq_nil_iff]
  intro ev hev
  rcases h ev hev with ⟨m, rfl⟩ | rfl <;> simp

theorem fatals_append (l1 l2 : List Event) : fatals (l1 ++ l2) = fatals l1 ++ fatals l2 := by
  simp [fatals]

theorem allWrites_append (l1 l2 : List Event) :
    allWrites (l1 ++ l2) = allWrites l1 ++ allWrites l2 := by
  simp [allWrites]

theorem entered_append (l1 l2 : List Event) : entered (l1 ++ l2) = entered l1 ++ entered l2 := by
  simp [entered]

theorem engineCalls_append (l1 l2 : List Event) :
    engineCalls (l1 ++ l2) = engineCalls l1 ++ engineCalls l2 := by
  simp [engineCalls]

/-- The trace of the backup command body, case by case. -/
theorem backupCommand_Run_eq {σ : Type} (backup : BackupEngine σ) (hasParent : Bool)
    (b : backupOptions) (e : σ) :
    NewBackupCommand.Run backup hasParent b (World.start e) =
      match b.Validate, hasParent with
      | some verr, true =>
        (.exited, ⟨e, [.enter .Validate, .klogFatal verr]⟩)
      | some verr, false =>
        match backup b e with
        | (some err, e1) =>
          (.returned, ⟨e1, [.enter .Validate, .fprint b.errOut verr.text, .enter .Run, .backup b,
            .klogErrorf ("run: backup failed: " ++ err.text), .fprint b.errOut err.text]⟩)
        | (none, e1) =>
          (.returned, ⟨e1, [.enter .Validate, .fprint b.errOut verr.text, .enter .Run,
            .backup b]⟩)
      | none, hp =>
        match backup b e with
        | (some err, e1) =>
          if hp then
            (.exited, ⟨e1, [.enter .Validate, .enter .Run, .backup b,
              .klogErrorf ("run: backup failed: " ++ err.text), .klogFatal err]⟩)
          else
            (.returned, ⟨e1, [.enter .Validate, .enter .Run, .backup b,
              .klogErrorf ("run: backup failed: " ++ err.text), .fprint b.errOut err.text]⟩)
        | (none, e1) => (.returned, ⟨e1, [.enter .Validate, .enter .Run, .backup b]⟩) := by
  rcases hv : b.Validate with _ | verr <;> rcases hres : backup b e with ⟨_ | err, e1⟩ <;>
    cases hasParent <;>
    simp [NewBackupCommand.Run, must, backupOptions.ValidateM, backupOptions.Run, World.emit,
      World.start, hv, hres]

/-- The trace of the restore command body, case by case. -/
theorem restoreCommand_Run_eq {σ : Type} (restore : RestoreEngine σ) (sched : List Action)
    (hasParent : Bool) (r : restoreOptions) (e : σ) :
    NewRestoreCommand.Run restore sched hasParent r (World.start e) =
      let bridge := Bridge.init.run sched
      let ctx : Ctx := ⟨bridge.ctxDone⟩
      match r.Validate, hasParent with
      | some verr, true =>
        (.exited, ⟨e, [.enter .Validate, .klogFatal verr]⟩)
      | some verr, false =>
        match restore ctx r e with
        | (some err, e1) =>
          (.returned, ⟨e1, [.enter .Validate, .fprint r.errOut verr.text, .enter .Run,
            .restore ctx r] ++ bridge.log ++
            [.klogErrorf ("run: restore failed: " ++ err.text), .fprint r.errOut err.text]⟩)
        | (none, e1) =>
          (.returned, ⟨e1, [.enter .Validate, .fprint r.errOut verr.text, .enter .Run,
            .restore ctx r] ++ bridge.log ++
            [.klogInfo "Successfully restored the cluster from the backup!"]⟩)
      | none, hp =>
        match restore ctx r e with
        | (some err, e1) =>
          if hp then
            (.exited, ⟨e1, [.enter .Validate, .enter .Run, .restore ctx r] ++ bridge.log ++
              [.klogErrorf ("run: restore failed: " ++ err.text), .klogFatal err]⟩)
          else
            (.returned, ⟨e1, [.enter .Validate, .enter .Run, .restore ctx r] ++ bridge.log ++
              [.klogErrorf ("run: restore failed: " ++ err.text), .fprint r.errOut err.text]⟩)
        | (none, e1) =>
          (.returned, ⟨e1, [.enter .Validate, .enter .Run, .restore ctx r] ++ bridge.log ++
            [.klogInfo "Successfully restored the cluster from the backup!"]⟩) := by
  rcases hv : r.Validate with _ | verr <;>
    rcases hres : restore ⟨(Bridge.init.run sched).ctxDone⟩ r e with ⟨_ | err, e1⟩ <;>
    cases hasParent <;>
    simp [NewRestoreCommand.Run, must, restoreOptions.ValidateM, restoreOptions.Run, World.emit,
      World.start, hv, hres]

/-! ## Validation -/

/-- C1: both `Validate` methods return the error with the text
"missing required flag: --backup-dir" exactly when `backupDir` is the empty
string, return nil for every other `backupDir` whatever the other fields
hold, and agree with each other on equal `backupDir`. -/
theorem C1_validate_iff_backupDir_empty (b : backupOptions) (r : restoreOptions) :
    (b.Validate = some ⟨"missing required flag: --backup-dir"⟩ ↔ b.backupDir = "") ∧
    (b.Validate ≠ none ↔ b.backupDir = "") ∧
    (b.backupDir ≠ "" → ∀ b2 : backupOptions, b2.backupDir = b.backupDir → b2.Validate = none) ∧
    (r.Validate = some ⟨"missing required flag: --backup-dir"⟩ ↔ r.backupDir = "") ∧
    (r.Validate ≠ none ↔ r.backupDir = "") ∧
    (r.backupDir ≠ "" → ∀ r2 : restoreOptions, r2.backupDir = r.backupDir → r2.Validate = none) ∧
    (r.backupDir = b.backupDir → r.Validate = b.Validate) := by
  rw [backup_Validate_eq, restore_Validate_eq]
  refine ⟨?_, ?_, ?_, ?_, ?_, ?_, ?_⟩
  · by_cases h : b.backupDir = "" <;> simp [h, missingBackupDir]
  · by_cases h : b.backupDir = "" <;> simp [h]
  · intro h b2 h2
    simp [backup_Validate_eq, h2, h]
  · by_cases h : r.backupDir = "" <;> simp [h, missingBackupDir]
  · by_cases h : r.backupDir = "" <;> simp [h]
  · intro h r2 h2
    simp [restore_Validate_eq, h2, h]
  · intro h
    simp [h]

/-! ## The command bodies -/

/-- C3: when the command has a parent and `Validate` fails, or `Validate`
passes and `Run` fails, the body ends in `klog.Fatal`, called exactly once
and with that error, nothing is written to any writer, and after a failed
`Validate` neither `Run` nor the engine is invoked.  Both commands. -/
theorem C3_parent_failure_is_fatal_once {σ : Type} (backup : BackupEngine σ)
    (restore : RestoreEngine σ) (sched : List Action) (b : backupOptions)
    (r : restoreOptions) (e : σ) :
    (∀ err, (b.Validate = some err ∨
        (b.Validate = none ∧ (b.Run backup (World.start e)).1 = some err)) →
      (NewBackupCommand.Run backup true b (World.start e)).1 = Outcome.exited ∧
      fatals (NewBackupCommand.Run backup true b (World.start e)).2.trace = [err] ∧
      allWrites (NewBackupCommand.Run backup true b (World.start e)).2.trace = []) ∧
    (b.Validate ≠ none →
      entered (NewBackupCommand.Run backup true b (World.start e)).2.trace = [Method.Validate] ∧
      engineCalls (NewBackupCommand.Run backup true b (World.start e)).2.trace = []) ∧
    (∀ err, (r.Validate = some err ∨
        (r.Validate = none ∧ (r.Run restore sched (World.start e)).1 = some err)) →
      (NewRestoreCommand.Run restore sched true r (World.start e)).1 = Outcome.exited ∧
      fatals (NewRestoreCommand.Run restore sched true r (World.start e)).2.trace = [err] ∧
      allWrites (NewRestoreCommand.Run restore sched true r (World.start e)).2.trace = []) ∧
    (r.Validate ≠ none →
      entered (NewRestoreCommand.Run restore sched true r (World.start e)).2.trace
        = [Method.Validate] ∧
      engineCalls (NewRestoreCommand.Run restore sched true r (World.start e)).2.trace = []) := by
  have hl := Bridge.init_run_log sched
  rw [backupCommand_Run_eq, restoreCommand_Run_eq, backup_Run_fst,
    restore_Run_fst]
  simp only [World.start]
  refine ⟨?_, ?_, ?_, ?_⟩
  · rintro err (hv | ⟨hv, hr⟩)
    · simp [hv, fatals, allWrites]
    · rcases hres : backup b e with ⟨_ | err1, e1⟩
      · simp [hres] at hr
      · simp only [hres] at hr
        cases hr
        simp [hv, hres, fatals, allWrites]
  · intro hv
    rcases hv1 : b.Validate with _ | verr
    · exact absurd hv1 hv
    · simp [entered, engineCalls]
  · rintro err (hv | ⟨hv, hr⟩)
    · simp [hv, fatals, allWrites]
    · rcases hres : restore ⟨(Bridge.init.run sched).ctxDone⟩ r e with ⟨_ | err1, e1⟩
      · simp [hres] at hr
      · simp only [hres] at hr
        cases hr
        simp only [hv, hres, if_true, fatals_append, allWrites_append, fatals_listener _ hl,
          allWrites_listener _ hl]
        simp [fatals, allWrites]
  · intro hv
    rcases hv1 : r.Validate with _ | verr
    · exact absurd hv1 hv
    · simp [entered, engineCalls]

/-- Witness of C3: a backup command with a parent and an empty `backupDir`,
and a restore command with a parent whose engine fails. -/
theorem C3_parent_failure_is_fatal_once_witness :
    fatals (NewBackupCommand.Run (fun _ (n : Nat) => (none, n + 1)) true
      ⟨[], "", "", "", "", "", "", 2⟩ (World.start 0)).2.trace
        = [⟨"missing required flag: --backup-dir"⟩] ∧
    fatals (NewRestoreCommand.Run (fun _ _ (n : Nat) => (some ⟨"boom"⟩, n + 1))
      [Action.interrupt, Action.listener] true ⟨"", "", "/tmp/b", 2⟩ (World.start 0)).2.trace
        = [⟨"boom"⟩] :=
  ⟨((C3_parent_failure_is_fatal_once (fun _ (n : Nat) => (none, n + 1))
      (fun _ _ (n : Nat) => (some ⟨"boom"⟩, n + 1)) [Action.interrupt, Action.listener]
      ⟨[], "", "", "", "", "", "", 2⟩ ⟨"", "", "/tmp/b", 2⟩ 0).1
        ⟨"missing required flag: --backup-dir"⟩ (Or.inl (by decide))).2.1,
   ((C3_parent_failure_is_fatal_once (fun _ (n : Nat) => (none, n + 1))
      (fun _ _ (n : Nat) => (some ⟨"boom"⟩, n + 1)) [Action.interrupt, Action.listener]
      ⟨[], "", "", "", "", "", "", 2⟩ ⟨"", "", "/tmp/b", 2⟩ 0).2.2.1
        ⟨"boom"⟩ (Or.inr ⟨by decide, by decide⟩)).2.1⟩

/-- C4: when the command has no parent, the body returns to its caller and
never reaches `klog.Fatal`, and the text of every error that `Validate` or
`Run` returns is written to the `errOut` of the options.  Both commands. -/
theorem C4_standalone_failure_is_printed {σ : Type} (backup : BackupEngine σ)
    (restore : RestoreEngine σ) (sched : List Action) (b : backupOptions)
    (r : restoreOptions) (e : σ) :
    ((NewBackupCommand.Run backup false b (World.start e)).1 = Outcome.returned ∧
      fatals (NewBackupCommand.Run backup false b (World.start e)).2.trace = [] ∧
      ∀ err, (b.Validate = some err ∨ (b.Run backup (World.start e)).1 = some err) →
        err.text ∈ writesTo b.errOut
          (NewBackupCommand.Run backup false b (World.start e)).2.trace) ∧
    ((NewRestoreCommand.Run restore sched false r (World.start e)).1 = Outcome.returned ∧
      fatals (NewRestoreCommand.Run restore sched false r (World.start e)).2.trace = [] ∧
      ∀ err, (r.Validate = some err ∨ (r.Run restore sched (World.start e)).1 = some err) →
        err.text ∈ writesTo r.errOut
          (NewRestoreCommand.Run restore sched false r (World.start e)).2.trace) := by
  have hl := Bridge.init_run_log sched
  rw [backupCommand_Run_eq, restoreCommand_Run_eq, backup_Run_fst,
    restore_Run_fst]
  simp only [World.start]
  constructor
  · rcases hv : b.Validate with _ | verr <;> rcases hres : backup b e with ⟨_ | err1, e1⟩ <;>
      simp [fatals, allWrites, writesTo]
    all_goals rintro err (rfl | rfl) <;> simp
  · rcases hv : r.Validate with _ | verr <;>
      rcases hres : restore ⟨(Bridge.init.run sched).ctxDone⟩ r e with ⟨_ | err1, e1⟩ <;>
      simp only [hres, Bool.false_eq_true, if_false, writesTo, fatals_append, allWrites_append,
        fatals_listener _ hl, allWrites_listener _ hl] <;>
      simp [fatals, allWrites]
    all_goals rintro err (rfl | rfl) <;> simp

/-- C9: when the command has no parent, the bytes `errOut` receives are the
text of the error of `Validate` (nothing when it passed) followed by the
text of the error of `Run` (nothing when it passed), with nothing between or
after them, and no other writer receives anything.  Both commands. -/
theorem C9_standalone_errOut_bytes {σ : Type} (backup : BackupEngine σ)
    (restore : RestoreEngine σ) (sched : List Action) (b : backupOptions)
    (r : restoreOptions) (e : σ) :
    (bytesWritten b.errOut (NewBackupCommand.Run backup false b (World.start e)).2.trace
        = errText b.Validate ++ errText (b.Run backup (World.start e)).1 ∧
      (∀ h, h ≠ b.errOut →
        writesTo h (NewBackupCommand.Run backup false b (World.start e)).2.trace = []) ∧
      (b.Validate = none → (b.Run backup (World.start e)).1 = none →
        allWrites (NewBackupCommand.Run backup false b (World.start e)).2.trace = [])) ∧
    (bytesWritten r.errOut
        (NewRestoreCommand.Run restore sched false r (World.start e)).2.trace
        = errText r.Validate ++ errText (r.Run restore sched (World.start e)).1 ∧
      (∀ h, h ≠ r.errOut →
        writesTo h (NewRestoreCommand.Run restore sched false r (World.start e)).2.trace = []) ∧
      (r.Validate = none → (r.Run restore sched (World.start e)).1 = none →
        allWrites (NewRestoreCommand.Run restore sched false r (World.start e)).2.trace = [])) := by
  have hl := Bridge.init_run_log sched
  rw [backupCommand_Run_eq, restoreCommand_Run_eq, backup_Run_fst,
    restore_Run_fst]
  simp only [World.start]
  constructor
  · rcases hv : b.Validate with _ | verr <;> rcases hres : backup b e with ⟨_ | err1, e1⟩ <;>
      simp [allWrites, writesTo, bytesWritten, errText, String.join] <;>
      intro h hh <;> simp [Ne.symm hh]
  · rcases hv : r.Validate with _ | verr <;>
      rcases hres : restore ⟨(Bridge.init.run sched).ctxDone⟩ r e with ⟨_ | err1, e1⟩ <;>
      simp only [hres, Bool.false_eq_true, if_false, writesTo, bytesWritten, allWrites_append,
        allWrites_listener _ hl] <;>
      simp [allWrites, errText, String.join] <;>
      intro h hh <;> simp [Ne.symm hh]

/-! ## `Run` and the engine -/

/-- C5: `backupOptions.Run` and `restoreOptions.Run` invoke their engine
exactly once, with the options of the receiver, and return what the engine
returned: nil for nil, the same error for an error.  The state the engine
owns is the one a single engine call leaves. -/
theorem C5_run_returns_engine_result {σ : Type} (backup : BackupEngine σ)
    (restore : RestoreEngine σ) (sched : List Action) (b : backupOptions)
    (r : restoreOptions) (w : World σ) :
    ((b.Run backup w).1 = (backup b w.engine).1 ∧
      (b.Run backup w).2.engine = (backup b w.engine).2 ∧
      engineCalls (b.Run backup w).2.trace = engineCalls w.trace ++ [Event.backup b]) ∧
    ((r.Run restore sched w).1 = (restore ⟨(Bridge.init.run sched).ctxDone⟩ r w.engine).1 ∧
      (r.Run restore sched w).2.engine
        = (restore ⟨(Bridge.init.run sched).ctxDone⟩ r w.engine).2 ∧
      engineCalls (r.Run restore sched w).2.trace
        = engineCalls w.trace ++ [Event.restore ⟨(Bridge.init.run sched).ctxDone⟩ r]) := by
  have hl := Bridge.init_run_log sched
  constructor
  · refine ⟨backup_Run_fst backup b w, ?_, ?_⟩
    · unfold backupOptions.Run
      simp only [World.emit]
      split <;> simp_all
    · unfold backupOptions.Run
      simp only [World.emit]
      split <;> simp [engineCalls]
  · refine ⟨restore_Run_fst restore sched r w, ?_, ?_⟩
    · unfold restoreOptions.Run
      simp only [World.emit]
      split <;> simp_all
    · unfold restoreOptions.Run
      simp only [World.emit]
      split <;>
        simp only [engineCalls_append, engineCalls_listener _ hl] <;>
        simp [engineCalls]

/-- C2, evaluated: the body of `cluster-backup` run without a parent on
options with an empty `backupDir`.  `Validate` fails, its error is printed,
and `Run` is entered all the same. -/
theorem C2_standalone_run_after_failed_validate :
    (backupOptions.Validate ⟨["127.0.0.1:2379"], "/etc/kubernetes", "/var/lib/etcd", "", "", "",
        "", 2⟩) = some ⟨"missing required flag: --backup-dir"⟩ ∧
    (NewBackupCommand.Run (fun _ (n : Nat) => (none, n + 1)) false
        ⟨["127.0.0.1:2379"], "/etc/kubernetes", "/var/lib/etcd", "", "", "", "", 2⟩
        (World.start 0)).2.trace
      = [Event.enter Method.Validate,
         Event.fprint 2 "missing required flag: --backup-dir",
         Event.enter Method.Run,
         Event.backup ⟨["127.0.0.1:2379"], "/etc/kubernetes", "/var/lib/etcd", "", "", "", "",
           2⟩] := by
  decide

/-- C6, evaluated: the body of `cluster-restore` run without a parent on
options with an empty `backupDir`.  The restore engine is invoked, once, on
options whose `backupDir` is empty. -/
theorem C6_standalone_engine_gets_empty_backupDir :
    engineBackupDirs (NewRestoreCommand.Run (fun _ _ (n : Nat) => (none, n + 1)) [] false
        ⟨"/etc/kubernetes", "/var/lib/etcd", "", 2⟩ (World.start 0)).2.trace = [""] ∧
    (NewRestoreCommand.Run (fun _ _ (n : Nat) => (none, n + 1)) [] false
        ⟨"/etc/kubernetes", "/var/lib/etcd", "", 2⟩ (World.start 0)).2.engine = 1 := by
  decide

/-! ## The interrupt listener -/

theorem Bridge.Inv_init : Bridge.init.Inv := by
  simp [Bridge.Inv, Bridge.init, Phase.rank]

theorem Bridge.Inv_step (b : Bridge) (a : Action) (h : b.Inv) : (b.step a).Inv := by
  obtain ⟨chan, phase, ctxDone, cancels, delivered, log⟩ := b
  obtain ⟨h1, h2, h3, h4, h5, h6⟩ := h
  simp only at h1 h2 h3 h4 h5 h6
  cases a with
  | interrupt =>
    simp only [Bridge.step, Bridge.notify]
    split
    · refine ⟨?_, h2, h3, ?_, ?_, h6⟩
      · simp only; omega
      · simp
      · intro _ _; simp only; omega
    · refine ⟨h1, h2, h3, ?_, ?_, h6⟩
      · simp
      · intro _ _; simp only; omega
  | listener =>
    cases phase with
    | listening =>
      simp only [Bridge.step, Bridge.listenerStep]
      split
      · exact ⟨h1, h2, h3, h4, h5, h6⟩
      · rename_i hc
        refine ⟨?_, ?_, ?_, ?_, ?_, ?_⟩
        · simp only; omega
        · simpa [Phase.rank] using h2
        · simpa [Phase.rank] using h3
        · intro hd
          exact absurd (h4 hd).2 hc
        · intro _ hp; simp at hp
        · exact h6
    | received =>
      simp only [Bridge.step, Bridge.listenerStep]
      refine ⟨h1, ?_, ?_, ?_, ?_, ?_⟩
      · simpa [Phase.rank] using h2
      · simpa [Phase.rank] using h3
      · intro hd
        simpa using (h4 hd).1
      · intro _ hp; simp at hp
      · simpa [List.count_append] using h6
    | warned =>
      simp only [Bridge.step, Bridge.listenerStep]
      simp only [Phase.rank] at h2
      refine ⟨h1, ?_, ?_, ?_, ?_, ?_⟩
      · simp [Phase.rank, h2]
      · simp [Phase.rank]
      · intro hd
        simpa using (h4 hd).1
      · intro _ hp; simp at hp
      · simp [List.count_append, h6]
    | cancelled =>
      simp only [Bridge.step, Bridge.listenerStep]
      refine ⟨h1, ?_, ?_, ?_, ?_, h6⟩
      · simpa [Phase.rank] using h2
      · simpa [Phase.rank] using h3
      · intro hd
        simpa using (h4 hd).1
      · intro _ hp; simp at hp
    | idle =>
      simp only [Bridge.step, Bridge.listenerStep]
      exact ⟨h1, h2, h3, h4, h5, h6⟩

theorem Bridge.Inv_run (sched : List Action) : ∀ b : Bridge, b.Inv → (b.run sched).Inv := by
  induction sched with
  | nil => intro b h; exact h
  | cons a rest ih => intro b h; exact ih _ (Bridge.Inv_step b a h)

theorem Bridge.delivered_run (sched : List Action) :
    ∀ b : Bridge, (b.run sched).delivered = b.delivered + sched.count Action.interrupt := by
  induction sched with
  | nil => intro b; simp [Bridge.run]
  | cons a rest ih =>
    intro b
    simp only [Bridge.run, ih]
    cases a with
    | interrupt =>
      simp only [Bridge.step, Bridge.notify, List.count_cons_self]
      split <;> simp only <;> omega
    | listener =>
      have hd : b.listenerStep.delivered = b.delivered := by
        simp only [Bridge.listenerStep]
        split
        · split <;> rfl
        all_goals rfl
      simp [Bridge.step, hd]

theorem Bridge.rank_step (b : Bridge) (a : Action) : b.phase.rank ≤ (b.step a).phase.rank := by
  obtain ⟨chan, phase, ctxDone, cancels, delivered, log⟩ := b
  cases a with
  | interrupt =>
    simp only [Bridge.step, Bridge.notify]
    split <;> exact Nat.le_refl _
  | listener =>
    cases phase <;> simp only [Bridge.step, Bridge.listenerStep, Phase.rank]
    · split <;> simp [Phase.rank]
    all_goals omega

theorem Bridge.rank_run (sched : List Action) :
    ∀ b : Bridge, b.phase.rank ≤ (b.run sched).phase.rank := by
  induction sched with
  | nil => intro b; exact Nat.le_refl _
  | cons a rest ih => intro b; exact Nat.le_trans (Bridge.rank_step b a) (ih _)

theorem Phase.rank_eq_four (p : Phase) : p.rank = 4 ↔ p = Phase.idle := by
  cases p <;> simp [Phase.rank]

theorem Phase.rank_le_four (p : Phase) : p.rank ≤ 4 := by
  cases p <;> simp [Phase.rank]

/-- From a reachable state in which an interrupt has been delivered, four
steps of the listener bring it to its end. -/
theorem Bridge.drain (b : Bridge) (h : b.Inv) (hd : 0 < b.delivered) :
    (b.run (List.replicate 4 Action.listener)).phase = Phase.idle := by
  obtain ⟨chan, phase, ctxDone, cancels, delivered, log⟩ := b
  obtain ⟨h1, h2, h3, h4, h5, h6⟩ := h
  simp only at h1 h2 h3 h4 h5 h6 hd
  cases phase with
  | listening =>
    have hc : chan = 1 := h5 hd rfl
    subst hc
    simp [Bridge.run, Bridge.step, Bridge.listenerStep, List.replicate]
  | received => simp [Bridge.run, Bridge.step, Bridge.listenerStep, List.replicate]
  | warned => simp [Bridge.run, Bridge.step, Bridge.listenerStep, List.replicate]
  | cancelled => simp [Bridge.run, Bridge.step, Bridge.listenerStep, List.replicate]
  | idle => simp [Bridge.run, Bridge.step, Bridge.listenerStep, List.replicate]

theorem Bridge.cancels_of_idle (b : Bridge) (h : b.Inv) (hp : b.phase = Phase.idle) :
    b.cancels = 1 := by
  have := h.2.1
  simpa [hp, Phase.rank] using this

theorem Bridge.ctxDone_iff (b : Bridge) (h : b.Inv) : b.ctxDone = true ↔ b.cancels = 1 := by
  obtain ⟨_, h2, h3, _, _, _⟩ := h
  rw [h2, h3]
  by_cases hr : 3 ≤ b.phase.rank <;> simp [hr]

/-- C8: in every schedule of interrupts and listener steps during the
restore engine call, the execution context is cancelled exactly when
`cancel()` has been called, which happens at most once, and never when no
interrupt arrives (the context then stays live and the listener stays
blocked); when at least one arrives, the listener, once it has run as far as
it can, has called `cancel()` exactly once, the context is cancelled and the
listener has terminated, and four steps of it are enough for that; the
listener never moves back to an earlier program point and a cancelled
context stays cancelled; once the listener has terminated, no further
interrupt or step changes its state or the number of `cancel()` calls.  In
`restoreOptions.Run` the `cancel()` calls of the trace are the ones counted
here, and the context the engine is invoked with is cancelled exactly when
`cancel()` was called. -/
theorem C8_listener_cancels_once (sched : List Action) :
    (Bridge.init.run sched).cancels ≤ 1 ∧
    ((Bridge.init.run sched).ctxDone = true ↔ (Bridge.init.run sched).cancels = 1) ∧
    (Action.interrupt ∉ sched →
      (Bridge.init.run sched).cancels = 0 ∧ (Bridge.init.run sched).ctxDone = false ∧
      (Bridge.init.run sched).phase = Phase.listening) ∧
    (Action.interrupt ∈ sched → (Bridge.init.run sched).quiescent = true →
      (Bridge.init.run sched).cancels = 1 ∧ (Bridge.init.run sched).ctxDone = true ∧
      (Bridge.init.run sched).phase = Phase.idle) ∧
    (Action.interrupt ∈ sched →
      ((Bridge.init.run sched).run (List.replicate 4 Action.listener)).cancels = 1 ∧
      ((Bridge.init.run sched).run (List.replicate 4 Action.listener)).ctxDone = true ∧
      ((Bridge.init.run sched).run (List.replicate 4 Action.listener)).phase = Phase.idle) ∧
    (∀ more : List Action,
      (Bridge.init.run sched).phase.rank ≤ ((Bridge.init.run sched).run more).phase.rank ∧
      ((Bridge.init.run sched).ctxDone = true →
        ((Bridge.init.run sched).run more).ctxDone = true)) ∧
    ((Bridge.init.run sched).phase = Phase.idle → ∀ more : List Action,
      ((Bridge.init.run sched).run more).cancels = 1 ∧
      ((Bridge.init.run sched).run more).ctxDone = true ∧
      ((Bridge.init.run sched).run more).phase = Phase.idle) ∧
    (∀ (σ : Type) (restore : RestoreEngine σ) (r : restoreOptions) (e : σ),
      cancelCalls (r.Run restore sched (World.start e)).2.trace
        = (Bridge.init.run sched).cancels ∧
      engineCalls (r.Run restore sched (World.start e)).2.trace
        = [Event.restore ⟨decide ((Bridge.init.run sched).cancels = 1)⟩ r]) := by
  have hinv := Bridge.Inv_run sched Bridge.init Bridge.Inv_init
  have hinv2 : ∀ more : List Action, ((Bridge.init.run sched).run more).Inv :=
    fun more => Bridge.Inv_run more _ hinv
  have hiff := Bridge.ctxDone_iff _ hinv
  have hdel := Bridge.delivered_run sched Bridge.init
  simp only [Bridge.init, Nat.zero_add] at hdel
  change (Bridge.init.run sched).delivered = _ at hdel
  have hpos : Action.interrupt ∈ sched → 0 < (Bridge.init.run sched).delivered := by
    intro hm
    rw [hdel]
    exact List.count_pos_iff.mpr hm
  have hlog := Bridge.init_run_log sched
  obtain ⟨h1, h2, h3, h4, h5, h6⟩ := hinv
  refine ⟨?_, hiff, ?_, ?_, ?_, ?_, ?_, ?_⟩
  · rw [h2]; split <;> omega
  · intro hm
    have hz : (Bridge.init.run sched).delivered = 0 := by
      rw [hdel]; exact List.count_eq_zero.mpr hm
    have hp := (h4 hz).1
    refine ⟨?_, ?_, hp⟩
    · rw [h2, hp]; simp [Phase.rank]
    · rw [h3, hp]; simp [Phase.rank]
  · intro hm hq
    have hd := hpos hm
    simp only [Bridge.quiescent, Bool.or_eq_true, Bool.and_eq_true, beq_iff_eq] at hq
    rcases hq with ⟨hp, hc⟩ | hp
    · have := h5 hd hp
      omega
    · have hc : (Bridge.init.run sched).cancels = 1 := by
        rw [h2, hp]; simp [Phase.rank]
      exact ⟨hc, hiff.mpr hc, hp⟩
  · intro hm
    have hp := Bridge.drain _ ⟨h1, h2, h3, h4, h5, h6⟩ (hpos hm)
    have hc := Bridge.cancels_of_idle _ (hinv2 _) hp
    exact ⟨hc, (Bridge.ctxDone_iff _ (hinv2 _)).mpr hc, hp⟩
  · intro more
    have hr := Bridge.rank_run more (Bridge.init.run sched)
    refine ⟨hr, ?_⟩
    intro hdone
    rw [h3] at hdone
    have h3m := (hinv2 more).2.2.1
    rw [h3m]
    simp only [decide_eq_true_eq] at hdone ⊢
    omega
  · intro hp more
    have hr := Bridge.rank_run more (Bridge.init.run sched)
    have hle := Phase.rank_le_four ((Bridge.init.run sched).run more).phase
    rw [hp] at hr
    have h4r : Phase.idle.rank = 4 := rfl
    rw [h4r] at hr
    have hp2 : ((Bridge.init.run sched).run more).phase = Phase.idle :=
      (Phase.rank_eq_four _).mp (by omega)
    have hc := Bridge.cancels_of_idle _ (hinv2 _) hp2
    exact ⟨hc, (Bridge.ctxDone_iff _ (hinv2 _)).mpr hc, hp2⟩
  · intro σ restore r e
    have hctx : decide ((Bridge.init.run sched).cancels = 1)
        = (Bridge.init.run sched).ctxDone := by
      cases hcd : (Bridge.init.run sched).ctxDone
      · have hne : ¬ (Bridge.init.run sched).cancels = 1 := by
          intro hc
          have ht := hiff.mpr hc
          rw [hcd] at ht
          exact Bool.noConfusion ht
        simp [hne]
      · simp [hiff.mp hcd]
    constructor
    · rw [← h6]
      unfold restoreOptions.Run
      simp only [World.emit, World.start, cancelCalls]
      split <;> simp [List.count_append, List.count_cons]
    · rw [hctx]
      unfold restoreOptions.Run
      simp only [World.emit, World.start]
      split <;>
        simp only [engineCalls_append, engineCalls_listener _ hlog] <;>
        simp [engineCalls]

/-- Witness of C8: an interrupt, the four steps of the listener, then a second
interrupt.  The listener has terminated, `cancel()` was called once and the
context is cancelled. -/
theorem C8_listener_cancels_once_witness :
    (Bridge.init.run [Action.interrupt, Action.listener, Action.listener, Action.listener,
        Action.listener, Action.interrupt]).cancels = 1 ∧
    (Bridge.init.run [Action.interrupt, Action.listener, Action.listener, Action.listener,
        Action.listener, Action.interrupt]).ctxDone = true ∧
    (Bridge.init.run [Action.interrupt, Action.listener, Action.listener, Action.listener,
        Action.listener, Action.interrupt]).phase = Phase.idle :=
  (C8_listener_cancels_once [Action.interrupt, Action.listener, Action.listener,
    Action.listener, Action.listener, Action.interrupt]).2.2.2.1 (by decide) (by decide)

/-! ## Flag binding -/

/-- C7: when `--backup-dir=d` is the only flag supplied, the backup options
hold the one-element list of endpoints `127.0.0.1:2379`, `/etc/kubernetes`
as `configDir`, `/var/lib/etcd` as `dataDir` and `d` as `backupDir`, and the
restore options hold the same `configDir` and `dataDir` and `d` as
`backupDir`; when no flag is supplied, `backupDir` is the empty string in
both and `Validate` returns the missing-flag error. -/
theorem C7_flag_defaults (getenv : String → String)
    (readAsCSV : String → Except GoError (List String)) (errOut : Writer) (d : String) :
    (∃ fs, (NewBackupCommand getenv errOut).Parse readAsCSV [("backup-dir", d)] = .ok fs ∧
      fs.opts.endpoints = ["127.0.0.1:2379"] ∧ fs.opts.endpoints.length = 1 ∧
      fs.opts.configDir = "/etc/kubernetes" ∧ fs.opts.dataDir = "/var/lib/etcd" ∧
      fs.opts.backupDir = d) ∧
    (∃ fs, (NewRestoreCommand errOut).Parse [("backup-dir", d)] = .ok fs ∧
      fs.opts.configDir = "/etc/kubernetes" ∧ fs.opts.dataDir = "/var/lib/etcd" ∧
      fs.opts.backupDir = d) ∧
    (∃ fs, (NewBackupCommand getenv errOut).Parse readAsCSV [] = .ok fs ∧
      fs.opts.backupDir = "" ∧
      fs.opts.Validate = some ⟨"missing required flag: --backup-dir"⟩) ∧
    (∃ fs, (NewRestoreCommand errOut).Parse [] = .ok fs ∧
      fs.opts.backupDir = "" ∧
      fs.opts.Validate = some ⟨"missing required flag: --backup-dir"⟩) := by
  refine ⟨⟨_, rfl, rfl, rfl, rfl, rfl, rfl⟩, ⟨_, rfl, rfl, rfl, rfl⟩, ⟨_, rfl, rfl, ?_⟩,
    ⟨_, rfl, rfl, ?_⟩⟩
  · rw [backup_Validate_eq]
    simp [NewBackupCommand, backupOptions.AddFlags, missingBackupDir]
  · rw [restore_Validate_eq]
    simp [NewRestoreCommand, restoreOptions.AddFlags, missingBackupDir]

/-! ## The etcd status observer -/

theorem lookup_filter_ne (m : List (String × String)) (k0 k : String) (h : k ≠ k0) :
    (m.filter (fun p => p.1 != k0)).lookup k = m.lookup k := by
  induction m with
  | nil => rfl
  | cons p rest ih =>
    obtain ⟨a, v⟩ := p
    by_cases ha : a = k0
    · subst ha
      have hk : (k == a) = false := by simpa using h
      simp [List.filter_cons, List.lookup_cons, hk, ih]
    · have hne : (a != k0) = true := by simpa using ha
      simp only [List.filter_cons, hne, if_true, List.lookup_cons, ih]

theorem etcdStatusObserver.setVersion_index (c : etcdStatusObserver) :
    goIndex c.setVersion.versionRecorder.GetVersions "operator" = c.operatorVersion := by
  unfold etcdStatusObserver.setVersion
  split
  · simp [goIndex, VersionRecorder.GetVersions, VersionRecorder.SetVersion, List.lookup_cons]
  · rename_i h
    simpa using h

theorem etcdStatusObserver.setVersion_of_recorded (c : etcdStatusObserver)
    (h : goIndex c.versionRecorder.GetVersions "operator" = c.operatorVersion) :
    c.setVersion = c := by
  unfold etcdStatusObserver.setVersion
  simp [h]

/-- C10: `ObserveEtcdStatus` returns an empty observed config and no errors;
afterwards the recorder maps "operator" to `operatorVersion` and every other
operand to what it held before; `SetVersion` is called once, with
("operator", `operatorVersion`), when the recorded version differed, and
not at all when it did not; a second call right after the first leaves the
observer and its recorder as they are, without a `SetVersion` call. -/
theorem C10_observe_records_operator_version {L R V : Type} (c : etcdStatusObserver)
    (genericListers : L) (recorder : R) (currentConfig : List (String × V)) :
    (c.ObserveEtcdStatus genericListers recorder currentConfig).1 = ([], []) ∧
    goIndex (c.ObserveEtcdStatus genericListers recorder currentConfig).2.versionRecorder.GetVersions
      "operator" = c.operatorVersion ∧
    (∀ k, k ≠ "operator" →
      (c.ObserveEtcdStatus genericListers recorder currentConfig).2.versionRecorder.GetVersions.lookup k
        = c.versionRecorder.GetVersions.lookup k) ∧
    (c.ObserveEtcdStatus genericListers recorder currentConfig).2.operatorVersion
      = c.operatorVersion ∧
    (c.ObserveEtcdStatus genericListers recorder currentConfig).2.versionRecorder.setVersionCalls
      = c.versionRecorder.setVersionCalls ++
        (if goIndex c.versionRecorder.GetVersions "operator" = c.operatorVersion then []
         else [("operator", c.operatorVersion)]) ∧
    ((c.ObserveEtcdStatus genericListers recorder currentConfig).2.ObserveEtcdStatus
        genericListers recorder currentConfig).2
      = (c.ObserveEtcdStatus genericListers recorder currentConfig).2 := by
  have hidx := etcdStatusObserver.setVersion_index c
  have hop : c.setVersion.operatorVersion = c.operatorVersion := by
    unfold etcdStatusObserver.setVersion
    split <;> rfl
  have hsnd : ∀ c1 : etcdStatusObserver,
      (c1.ObserveEtcdStatus genericListers recorder currentConfig).2 = c1.setVersion :=
    fun _ => rfl
  simp only [hsnd]
  refine ⟨rfl, hidx, ?_, hop, ?_, ?_⟩
  · intro k hk
    unfold etcdStatusObserver.setVersion
    split
    · have hk2 : (k == "operator") = false := by simpa using hk
      simp only [VersionRecorder.GetVersions, VersionRecorder.SetVersion, List.lookup_cons, hk2]
      exact lookup_filter_ne _ _ _ hk
    · rfl
  · unfold etcdStatusObserver.setVersion
    by_cases h : goIndex c.versionRecorder.GetVersions "operator" = c.operatorVersion
    · simp [h]
    · simp [h, VersionRecorder.SetVersion]
  · have h2 : goIndex c.setVersion.versionRecorder.GetVersions "operator"
        = c.setVersion.operatorVersion := by rw [hidx, hop]
    exact etcdStatusObserver.setVersion_of_recorded _ h2

end ClusterEtcdOperator

